import Mathlib

/-!
Verification of the background-job supervisor of `code-intel`
(`src/scripts/jobs.py` together with the per-job watcher script it
materializes, `src/jobs/artifacts/watcher_1.py`, and the admission
function `guard_job` of `src/scripts/guard.py`).

The SQLite tables `jobs` and `notifications` are embedded as Lean lists
of rows; timestamps are abstract ticks (`Nat`); the filesystem of
artifact and watcher files is a list of path strings; the OS (process
liveness, process groups, signal delivery) is an explicit environment
record.  Each Python function that the claims touch is translated into
a pure Lean function over this state, following the source line by
line.
-/

namespace CodeIntel

/-- A row of the `jobs` table (schema in `jobs.py`, `init`, lines 36-47).
`status` is one of `"running" | "done" | "failed" | "cancelled"`;
nullable columns are `Option`. Timestamps are abstract ticks. -/
structure Job where
  id : Nat
  command : String
  label : Option String
  status : String
  pid : Option Nat
  created_at : Nat
  finished_at : Option Nat
  exit_code : Option Nat
  output_file : Option String
  error : Option String
  deriving Repr, DecidableEq

/-- A row of the `notifications` table (`jobs.py`, `init`, lines 50-57). -/
structure Notification where
  id : Nat
  job_id : Nat
  message : String
  created_at : Nat
  delivered : Bool
  deriving Repr, DecidableEq

/-- The durable state: the two SQLite tables with their autoincrement
counters, plus the artifact directory as a set (list) of existing file
paths. -/
structure DB where
  jobs : List Job
  notifications : List Notification
  next_job_id : Nat
  next_notif_id : Nat
  files : List String
  deriving Repr, DecidableEq

/-- Python truthiness of the nullable `pid` column: `not job['pid']`
is true when the column is NULL or 0. -/
def pidTruthy : Option Nat → Bool
  | none => false
  | some p => p ≠ 0

/-- The terminal statuses (`'done'`, `'failed'`, `'cancelled'`),
as enumerated in `clean_jobs` (jobs.py line 356). -/
def isTerminal (s : String) : Bool :=
  s = "done" || s = "failed" || s = "cancelled"

/-- `SELECT COUNT(*) FROM jobs WHERE status='running'`
(guard.py line 210). -/
def runningCount (jobs : List Job) : Nat :=
  (jobs.filter (fun j => j.status = "running")).length

/-- Artifact paths, named deterministically from the job id
(jobs.py lines 78-79): `ARTIFACTS_DIR / f"job_{id}.out"`.  The
directory prefix is kept as a literal. -/
def outputPath (id : Nat) : String := "artifacts/job_" ++ toString id ++ ".out"

/-- `ARTIFACTS_DIR / f"job_{id}.err"` (jobs.py line 79). -/
def errorPath (id : Nat) : String := "artifacts/job_" ++ toString id ++ ".err"

/-- The per-job watcher script path `ARTIFACTS_DIR / f"watcher_{id}.py"`
(jobs.py line 149, line 374). -/
def watcherPath (id : Nat) : String := "artifacts/watcher_" ++ toString id ++ ".py"

/-- `Path(output_file).with_suffix(ext)` as used in `clean_jobs`
(jobs.py line 370): replace everything from the last `.` on with `ext`
(the artifact paths always carry a `.out` suffix and an undotted
directory). -/
def withSuffix (p : String) (ext : String) : String :=
  let cs := p.data
  let stem := if cs.contains '.'
    then ((cs.reverse.dropWhile (fun c => c ≠ '.')).drop 1).reverse
    else cs
  stem.asString ++ ext

/-- Python `str.strip()` on the error artifact (watcher line 131 of
jobs.py / line 32 of watcher_1.py): drop leading and trailing
whitespace. -/
def pyWhitespace (c : Char) : Bool :=
  c = ' ' || c = '\t' || c = '\n' || c = '\r' || c = '\x0b' || c = '\x0c'

def pyStrip (s : String) : String :=
  (((s.data.dropWhile pyWhitespace).reverse.dropWhile pyWhitespace).reverse).asString

/-- Python `str.lower()` (the strings it is applied to here are the
ASCII blocked-command entries and the submitted command line). -/
def pyLower (s : String) : String := (s.data.map Char.toLower).asString

/-- Python slicing `s[:n]` on text. -/
def pyTake (s : String) (n : Nat) : String := (s.data.take n).asString

/-- The OS as the supervisor observes it: which pids answer the
`os.kill(pid, 0)` liveness probe, the process-group id of a pid
(`os.getpgid`), and whether `os.killpg(..., SIGTERM)` delivery
succeeds (when it does not, the Python code catches the exception). -/
structure OS where
  alive : Nat → Bool
  pgid : Nat → Nat
  killpgOk : Nat → Bool

/-- Apply an update to every jobs row matching an id, i.e. one SQL
`UPDATE jobs ... WHERE id = ?`. -/
def updateJob (jobs : List Job) (id : Nat) (f : Job → Job) : List Job :=
  jobs.map (fun j => if j.id = id then f j else j)

-- ─── Status Reconciler: `check_and_update_status` (jobs.py 167-182) ──

/-- `check_and_update_status(conn, job)` (jobs.py lines 167-182): if
the row's status is not `'running'` or its pid column is falsy, return
the row and the store untouched; otherwise probe the pid, and when the
probe fails update the row to `status='done'` with `finished_at=now`
(no other column is written) and return the row with its status field
replaced. -/
def check_and_update_status (os : OS) (now : Nat) (db : DB) (job : Job) :
    DB × Job :=
  if job.status ≠ "running" ∨ ¬ pidTruthy job.pid then
    (db, job)
  else if os.alive (job.pid.getD 0) then
    (db, job)
  else
    ({ db with jobs := (updateJob db.jobs job.id
        (fun j => { j with status := "done", finished_at := some now })) },
     { job with status := "done" })

-- ─── Cancel: `cancel_job` (jobs.py 290-319) ──────────────────────

/-- What `cancel_job` reports: the job was not found, it was already in
a non-running status (reported verbatim), or it was cancelled, with
the process-group id that received SIGTERM when a signal was sent
(`none` when the pid column was falsy and no signal was attempted). -/
inductive CancelOutcome where
  | notFound
  | already (status : String)
  | cancelled (signalledPgid : Option Nat)
  deriving Repr, DecidableEq

/-- `cancel_job(job_id)` (jobs.py lines 290-319): look the row up; if
absent report not-found; if its status is not `'running'` report the
existing status and write nothing; otherwise, when the pid column is
truthy, send SIGTERM to `os.getpgid(pid)`'s process group (delivery
failure is caught and ignored), and in every running case update the
row to `status='cancelled'`, `finished_at=now`. -/
def cancel_job (os : OS) (now : Nat) (db : DB) (job_id : Nat) :
    DB × CancelOutcome :=
  match db.jobs.find? (fun j => j.id = job_id) with
  | none => (db, .notFound)
  | some job =>
    if job.status ≠ "running" then
      (db, .already job.status)
    else
      let signalled : Option Nat :=
        if pidTruthy job.pid then some (os.pgid (job.pid.getD 0)) else none
      ({ db with jobs := (updateJob db.jobs job_id
          (fun j => { j with status := "cancelled", finished_at := some now })) },
       .cancelled signalled)

-- ─── Completion Watcher finalize step ────────────────────────────
-- (the tail of the generated watcher script, jobs.py lines 126-146,
-- identical to src/jobs/artifacts/watcher_1.py lines 27-47)

/-- The finalize step of the per-job watcher, run after the liveness
probe loop has seen the job's process disappear.  `rawErr` is the
content of the error artifact file (read and `.strip()`ed, watcher
line 131); `preview` is the already-computed output preview (watcher
lines 117-124).  It derives `exit_code = 1 if err_text else 0`,
unconditionally updates the row to `status='done'` with `finished_at`
and `exit_code`, stores `err_text[:500]` in `error` when non-empty,
and inserts one notification row
`f"Job #{JOB_ID} {status_word}.\n{preview}"` with `delivered=0`. -/
def watcherFinalize (now : Nat) (db : DB) (job_id : Nat)
    (rawErr : String) (preview : String) : DB :=
  let err_text := pyStrip rawErr
  let exit_code : Nat := if err_text ≠ "" then 1 else 0
  let status_word := if err_text ≠ "" then "finished with warnings" else "finished"
  let jobs1 := updateJob db.jobs job_id
    (fun j => { j with status := "done", finished_at := some now,
                       exit_code := some exit_code })
  let jobs2 := if err_text ≠ "" then
      updateJob jobs1 job_id (fun j => { j with error := some (pyTake err_text 500) })
    else jobs1
  let msg := "Job #" ++ toString job_id ++ " " ++ status_word ++ ".\n" ++ preview
  { db with
      jobs := jobs2,
      notifications := db.notifications ++
        [⟨db.next_notif_id, job_id, msg, now, false⟩],
      next_notif_id := db.next_notif_id + 1 }

-- ─── Notifications: `get_notifications` (jobs.py 323-343) ────────

/-- `ORDER BY created_at` on the undelivered rows.  SQL fixes only
that the result is a reordering sorted by the key (tie order is
unspecified), embedded here as an insertion sort by creation tick. -/
def sortByCreated (ns : List Notification) : List Notification :=
  ns.insertionSort (fun a b => a.created_at ≤ b.created_at)

/-- One `UPDATE notifications SET delivered = 1 WHERE id = ?`
(jobs.py line 340). -/
def markDelivered (ns : List Notification) (id : Nat) : List Notification :=
  ns.map (fun n => if n.id = id then { n with delivered := true } else n)

/-- `get_notifications()` (jobs.py lines 323-343): select all rows
with `delivered = 0` ordered by creation time, print each message, and
mark each returned row delivered.  Returns the delivered messages and
the new store. -/
def get_notifications (db : DB) : List String × DB :=
  let pending := sortByCreated (db.notifications.filter (fun n => ¬ n.delivered))
  (pending.map (fun n => n.message),
   { db with notifications :=
       pending.foldl (fun ns n => markDelivered ns n.id) db.notifications })

-- ─── Clean: `clean_jobs` (jobs.py 347-382) ───────────────────────

/-- `ORDER BY id DESC`: a reordering sorted by descending id (SQL
leaves tie order unspecified; under the schema ids are unique anyway),
embedded as an insertion sort. -/
def sortByIdDesc (js : List Job) : List Job :=
  js.insertionSort (fun a b => b.id ≤ a.id)

/-- The rows `clean_jobs` selects for deletion (jobs.py lines 354-359):
terminal jobs ordered by id descending, skipping the `keep` most
recent (`LIMIT -1 OFFSET keep`). -/
def cleanVictims (db : DB) (keep : Nat) : List Job :=
  (sortByIdDesc (db.jobs.filter (fun j => isTerminal j.status))).drop keep

/-- The files the deletion loop unlinks for one selected row (jobs.py
lines 367-376): when the row's `output_file` column is non-NULL, the
two artifact files (`with_suffix('.out')` / `'.err'`) and the residual
watcher script; when it is NULL the loop body touches no file. -/
def ownsFile (row : Job) (f : String) : Bool :=
  match row.output_file with
  | some o => f = withSuffix o ".out" || f = withSuffix o ".err" ||
      f = watcherPath row.id
  | none => false

/-- The body of the deletion loop for one selected row (jobs.py lines
366-378): unlink the row's artifact and watcher files if they exist,
then delete the row's notifications and the row itself. -/
def cleanOne (db : DB) (row : Job) : DB :=
  { db with
      files := db.files.filter (fun f => ¬ ownsFile row f),
      notifications := db.notifications.filter (fun n => n.job_id ≠ row.id),
      jobs := db.jobs.filter (fun j => j.id ≠ row.id) }

/-- `clean_jobs(keep)` (jobs.py lines 347-382): delete every selected
row's artifacts, notifications and job row; returns the new store and
the number of cleaned jobs. -/
def clean_jobs (db : DB) (keep : Nat) : DB × Nat :=
  let victims := cleanVictims db keep
  (victims.foldl cleanOne db, victims.length)

-- ─── Submit: `submit_job` (jobs.py 67-163) ───────────────────────

/-- `submit_job(command, label)` (jobs.py lines 67-163), successful
launch path: insert a `'running'` row with a fresh autoincrement id and
NULL pid, create the two artifact files, start the detached process
(the OS hands back `pid`), update the row with the pid and output
path, commit, then materialize and spawn the watcher script.  No
admission check of any kind is performed here: `jobs.py` never calls
`guard.guard_job`, so the row is inserted whatever the current running
count is.  Returns the new store and the job id. -/
def submit_job (db : DB) (command : String) (label : Option String)
    (now : Nat) (pid : Nat) : DB × Nat :=
  let id := db.next_job_id
  let row : Job :=
    { id := id, command := command, label := label, status := "running",
      pid := some pid, created_at := now, finished_at := none,
      exit_code := none, output_file := some (outputPath id), error := none }
  ({ db with
      jobs := db.jobs ++ [row],
      next_job_id := id + 1,
      files := db.files ++ [outputPath id, errorPath id, watcherPath id] },
   id)

-- ─── Read operations (jobs.py 184-286): store effect ─────────────

/-- The store effect of `get_job_status(job_id)` (jobs.py lines
184-212): fetch the row (`SELECT * FROM jobs WHERE id = ?`) and, when
present, pass it through the Status Reconciler; the remainder of the
function only prints. -/
def get_job_status (os : OS) (now : Nat) (db : DB) (job_id : Nat) : DB :=
  match db.jobs.find? (fun j => j.id = job_id) with
  | none => db
  | some job => (check_and_update_status os now db job).1

/-- The store effect of `get_job_result(job_id, tail)` (jobs.py lines
216-258): identical to a status read — fetch the row, reconcile, and
the rest only reads artifact files and prints. -/
def get_job_result (os : OS) (now : Nat) (db : DB) (job_id : Nat) : DB :=
  match db.jobs.find? (fun j => j.id = job_id) with
  | none => db
  | some job => (check_and_update_status os now db job).1

/-- The store effect of `list_jobs(limit)` (jobs.py lines 262-286):
fetch the most recent `limit` rows (`ORDER BY id DESC LIMIT ?`), then
pass each fetched row dict through the Status Reconciler in turn
against the evolving store. -/
def list_jobs (os : OS) (now : Nat) (db : DB) (limit : Nat) : DB :=
  ((sortByIdDesc db.jobs).take limit).foldl
    (fun d row => (check_and_update_status os now d row).1) db

-- ─── Admission: `guard_job` (guard.py 185-218) ───────────────────

/-- The safety configuration as `guard_job` consumes it
(guard.py `DEFAULT_CONFIG` / `load_config`).  The regular-expression
engine behind `blocked_patterns` and the filesystem path resolution
behind `is_path_allowed` are external collaborators the spec scopes
out, so they appear as opaque decision functions: `blockedPatternHit`
returns the first pattern `re.search` matches (if any), `pathAllowed`
is `is_path_allowed(p)[0]`. -/
structure GuardConfig where
  blocked_commands : List String
  blockedPatternHit : String → Option String
  pathAllowed : String → Bool
  max_concurrent_jobs : Nat

/-- `[^\s;|&]+`: the run of characters a path token extends over. -/
def pathRun (cs : List Char) : List Char :=
  cs.takeWhile (fun c => ¬ pyWhitespace c ∧ c ≠ ';' ∧ c ≠ '|' ∧ c ≠ '&')

/-- `re.findall(r'(?:^|\s)([/~][^\s;|&]+)', command)` (guard.py line
197): scan left to right; wherever the position is the string start or
follows whitespace and the next character is `/` or `~` followed by at
least one further token character, capture the token and resume after
it. -/
def findPaths (atStart : Bool) (cs : List Char) : List String :=
  match cs with
  | [] => []
  | c :: rest =>
    if (c = '/' ∨ c = '~') ∧ atStart then
      let run := pathRun rest
      if run.length ≥ 1 then
        (c :: run).asString :: findPaths false (rest.drop run.length)
      else findPaths false rest
    else findPaths (pyWhitespace c) rest
  termination_by cs.length
  decreasing_by
    · simp [List.length_drop]
      omega
    · simp
    · simp

/-- `is_command_safe(command, config)` (guard.py lines 150-170):
lowercase and strip the command, reject if it contains any blocked
command string (case-insensitively), then reject if any blocked
pattern matches, else report it safe. -/
def is_command_safe (cfg : GuardConfig) (command : String) : Bool × String :=
  let cmd_lower := pyStrip (pyLower command)
  match cfg.blocked_commands.find? (fun b => decide ((pyLower b).data <:+: cmd_lower.data)) with
  | some b => (false, "Blocked command: contains '" ++ b ++ "'")
  | none =>
    match cfg.blockedPatternHit command with
    | some pat => (false, "Blocked pattern: " ++ pat)
    | none => (true, "Command appears safe")

/-- `guard_job(command, label)` (guard.py lines 185-218): check command
safety, then check every path token the command references against the
allowlist, then — when the jobs database file exists (`jobsDb = some
db`) — compare the running count against the configured
`max_concurrent_jobs`, denying with a reason naming the current and
maximum counts when the limit is met or exceeded; otherwise approve.
`jobs.py` never invokes this function: it is wired only to external
callers. -/
def guard_job (cfg : GuardConfig) (jobsDb : Option DB) (command : String) :
    Bool × String :=
  let safe := is_command_safe cfg command
  if ¬ safe.1 then (false, safe.2)
  else
    let path_patterns := findPaths true command.data
    match (path_patterns.filter (fun p => p ≠ "/" ∧ p ≠ "~")).find?
        (fun p => ¬ cfg.pathAllowed p) with
    | some p => (false, "Command references disallowed path: " ++ p)
    | none =>
      match jobsDb with
      | some db =>
        let running := runningCount db.jobs
        if running ≥ cfg.max_concurrent_jobs then
          (false, "Too many concurrent jobs (" ++ toString running ++ "/" ++
            toString cfg.max_concurrent_jobs ++ ")")
        else (true, "Command approved")
      | none => (true, "Command approved")

-- ─── Concrete stores used to instantiate the theorems ────────────

/-- A concrete jobs row (fields not under test get fixed values). -/
def mkJob (i : Nat) (st : String) (p : Option Nat) : Job :=
  { id := i, command := "sleep 60", label := none, status := st, pid := p,
    created_at := i, finished_at := none, exit_code := none,
    output_file := some (outputPath i), error := none }

/-- An OS in which every liveness probe fails, process group ids are
`pid + 100`, and signal delivery succeeds. -/
def osAllDead : OS :=
  { alive := fun _ => false, pgid := fun p => p + 100, killpgOk := fun _ => true }

/-- A store holding one running job with pid 10. -/
def dbOneRunning : DB :=
  { jobs := [mkJob 1 "running" (some 10)], notifications := [],
    next_job_id := 2, next_notif_id := 1,
    files := [outputPath 1, errorPath 1, watcherPath 1] }

/-- A store holding one running job whose pid column is NULL (the
launch-failure shape of spec §7). -/
def dbPidless : DB :=
  { jobs := [mkJob 1 "running" none], notifications := [],
    next_job_id := 2, next_notif_id := 1,
    files := [outputPath 1, errorPath 1, watcherPath 1] }

/-- A store holding one job already cancelled (its process was
signalled but the watcher is still polling). -/
def dbOneCancelled : DB :=
  { jobs := [{ mkJob 1 "cancelled" (some 10) with finished_at := some 3 }],
    notifications := [], next_job_id := 2, next_notif_id := 1,
    files := [outputPath 1, errorPath 1, watcherPath 1] }

/-- A store at the concurrency limit: five running jobs (ids 1-5),
matching `max_concurrent_jobs = 5` of `DEFAULT_CONFIG`. -/
def dbFiveRunning : DB :=
  { jobs := [mkJob 1 "running" (some 11), mkJob 2 "running" (some 12),
             mkJob 3 "running" (some 13), mkJob 4 "running" (some 14),
             mkJob 5 "running" (some 15)],
    notifications := [], next_job_id := 6, next_notif_id := 1, files := [] }

/-- The spec §8 cleanup scenario: five terminal jobs (ids 1-5) and one
running job (id 6), with one notification for job 1 and one for job 4. -/
def dbSixJobs : DB :=
  { jobs := [mkJob 1 "done" none, mkJob 2 "failed" none,
             mkJob 3 "cancelled" none, mkJob 4 "done" none,
             mkJob 5 "done" none, mkJob 6 "running" (some 9)],
    notifications := [⟨1, 1, "n1", 1, true⟩, ⟨2, 4, "n4", 4, false⟩],
    next_job_id := 7, next_notif_id := 3,
    files := (List.range 7).flatMap
      (fun i => [outputPath i, errorPath i, watcherPath i]) }

/-- `DEFAULT_CONFIG` of guard.py (lines 33-67) restricted to the
fields `guard_job` consumes; the out-of-scope collaborators are benign
(no blocked regex pattern matches, every path resolves inside the
allowlist), which isolates the quota check. -/
def defaultGuardConfig : GuardConfig :=
  { blocked_commands := ["rm -rf /", "rm -rf ~", "rm -rf .", "rm -rf ..",
                         "format", "mkfs"],
    blockedPatternHit := fun _ => none,
    pathAllowed := fun _ => true,
    max_concurrent_jobs := 5 }

/-- The number of terminal jobs strictly more recent (larger id) than
the given job; a job is "beyond the `keep` most recent terminal jobs"
precisely when this rank is at least `keep`. -/
def rankAbove (db : DB) (j : Job) : Nat :=
  (db.jobs.filter (fun k => isTerminal k.status && decide (j.id < k.id))).length

-- ════════════════════════ Theorems ═══════════════════════════════

instance : IsTotal Job (fun a b => b.id ≤ a.id) :=
  ⟨fun a b => (Nat.le_total a.id b.id).symm⟩

instance : IsTrans Job (fun a b => b.id ≤ a.id) :=
  ⟨fun _ _ _ h1 h2 => Nat.le_trans h2 h1⟩

instance : IsTotal Notification (fun a b => a.created_at ≤ b.created_at) :=
  ⟨fun a b => Nat.le_total a.created_at b.created_at⟩

instance : IsTrans Notification (fun a b => a.created_at ≤ b.created_at) :=
  ⟨fun _ _ _ h1 h2 => Nat.le_trans h1 h2⟩

theorem mem_updateJob_of_ne {jobs : List Job} {k : Job} {id : Nat}
    (hk : k ∈ jobs) (hne : k.id ≠ id) (f : Job → Job) :
    k ∈ updateJob jobs id f :=
  List.mem_map.mpr ⟨k, hk, by simp [hne]⟩

theorem mem_updateJob_of_eq {jobs : List Job} {k : Job} {id : Nat}
    (hk : k ∈ jobs) (heq : k.id = id) (f : Job → Job) :
    f k ∈ updateJob jobs id f :=
  List.mem_map.mpr ⟨k, hk, by simp [heq]⟩

theorem reconcile_eq_of_not_running (os : OS) (now : Nat) (db : DB) (job : Job)
    (h : job.status ≠ "running") :
    check_and_update_status os now db job = (db, job) := by
  unfold check_and_update_status
  rw [if_pos (Or.inl h)]

theorem reconcile_eq_of_pid_falsy (os : OS) (now : Nat) (db : DB) (job : Job)
    (h : ¬ pidTruthy job.pid) :
    check_and_update_status os now db job = (db, job) := by
  unfold check_and_update_status
  rw [if_pos (Or.inr h)]

/-- The Reconciler only ever rewrites rows carrying the id of the row
it was handed; any other row of the store survives verbatim, as does
every row when the handed row's pid column is falsy. -/
theorem check_preserves_other_rows (os : OS) (now : Nat) (d : DB) (r k : Job)
    (hk : k ∈ d.jobs) (h : r.id ≠ k.id ∨ ¬ pidTruthy r.pid) :
    k ∈ (check_and_update_status os now d r).1.jobs := by
  unfold check_and_update_status
  split
  · exact hk
  · split
    · exact hk
    · rcases h with h | h
      · exact mem_updateJob_of_ne hk (fun e => h e.symm) _
      · rename_i hcond _
        push_neg at hcond
        exact absurd hcond.2 h

theorem mem_jobs_foldl_check (os : OS) (now : Nat) (j : Job)
    (rows : List Job) (hrows : ∀ r ∈ rows, r.id ≠ j.id ∨ ¬ pidTruthy r.pid) :
    ∀ d : DB, j ∈ d.jobs →
      j ∈ (rows.foldl (fun d r => (check_and_update_status os now d r).1) d).jobs := by
  induction rows with
  | nil => intro d hd; simpa using hd
  | cons r rs ih =>
    intro d hd
    rw [List.foldl_cons]
    exact ih (fun x hx => hrows x (List.mem_cons_of_mem _ hx)) _
      (check_preserves_other_rows os now d r j hd (hrows r (List.mem_cons_self _ _)))

/-- A row whose pid column is falsy survives every read operation of
the store (the reads mutate the store only through the Reconciler, and
the Reconciler skips that row and only rewrites rows by id). -/
theorem pid_falsy_survives_reads (os : OS) (now : Nat) (db : DB) (j : Job)
    (hnodup : (db.jobs.map Job.id).Nodup) (hj : j ∈ db.jobs)
    (hpid : ¬ pidTruthy j.pid) :
    (∀ q, j ∈ (get_job_status os now db q).jobs) ∧
    (∀ q, j ∈ (get_job_result os now db q).jobs) ∧
    (∀ limit, j ∈ (list_jobs os now db limit).jobs) := by
  have hdisj : ∀ r ∈ db.jobs, r.id ≠ j.id ∨ ¬ pidTruthy r.pid := by
    intro r hr
    by_cases he : r.id = j.id
    · exact Or.inr (by rw [List.inj_on_of_nodup_map hnodup hr hj he]; exact hpid)
    · exact Or.inl he
  refine ⟨?_, ?_, ?_⟩
  · intro q
    unfold get_job_status
    cases hfind : db.jobs.find? (fun x => x.id = q) with
    | none => exact hj
    | some job =>
      exact check_preserves_other_rows os now db job j hj
        (hdisj job (List.mem_of_find?_eq_some hfind))
  · intro q
    unfold get_job_result
    cases hfind : db.jobs.find? (fun x => x.id = q) with
    | none => exact hj
    | some job =>
      exact check_preserves_other_rows os now db job j hj
        (hdisj job (List.mem_of_find?_eq_some hfind))
  · intro limit
    apply mem_jobs_foldl_check os now j _ _ db hj
    intro r hr
    apply hdisj
    have h1 : r ∈ sortByIdDesc db.jobs := (List.take_sublist _ _).subset hr
    exact (List.perm_insertionSort _ _).mem_iff.mp h1

/-- C9: a job row recorded `'running'` with a NULL process identifier
(the LaunchFailure shape) is never transitioned by the Status
Reconciler: `check_and_update_status` returns the store and the row
untouched (its guard `not job['pid']` fires, jobs.py line 169), and
every read operation — status check, result fetch, listing — leaves
the row present and unchanged in the store, so it stays `'running'`
until an explicit cancel. -/
theorem C9_reconciler_skips_pidless (os : OS) (now : Nat) (db : DB)
    (j : Job) (hnodup : (db.jobs.map Job.id).Nodup) (hj : j ∈ db.jobs)
    (_hrun : j.status = "running") (hpid : j.pid = none) :
    check_and_update_status os now db j = (db, j) ∧
    (∀ q, j ∈ (get_job_status os now db q).jobs) ∧
    (∀ q, j ∈ (get_job_result os now db q).jobs) ∧
    (∀ limit, j ∈ (list_jobs os now db limit).jobs) := by
  have hp : ¬ pidTruthy j.pid := by simp [hpid, pidTruthy]
  have hr := pid_falsy_survives_reads os now db j hnodup hj hp
  exact ⟨reconcile_eq_of_pid_falsy os now db j hp, hr.1, hr.2.1, hr.2.2⟩

/-- Witness for C9 at a concrete store: one `'running'` row with NULL
pid; a status read, a result read and a listing all leave it there
unchanged. -/
theorem C9_reconciler_skips_pidless_witness :
    check_and_update_status osAllDead 5 dbPidless (mkJob 1 "running" none) =
      (dbPidless, mkJob 1 "running" none) ∧
    mkJob 1 "running" none ∈ (get_job_status osAllDead 5 dbPidless 1).jobs ∧
    mkJob 1 "running" none ∈ (get_job_result osAllDead 5 dbPidless 1).jobs ∧
    mkJob 1 "running" none ∈ (list_jobs osAllDead 5 dbPidless 10).jobs := by
  have h := C9_reconciler_skips_pidless osAllDead 5 dbPidless
    (mkJob 1 "running" none) (by decide) (by decide) rfl rfl
  exact ⟨h.1, h.2.1 1, h.2.2.1 1, h.2.2.2 10⟩

/-- C2 fails on the code: the Completion Watcher's finalize step
(jobs.py line 140 of the generated script; watcher_1.py line 41) runs
`UPDATE jobs SET status='done' ... WHERE id=?` with no guard on the
current status, so a job already in the terminal status `'cancelled'`
(cancel raced ahead of the watcher) is moved to `'done'`: terminal
status is not monotonic. -/
theorem C2_watcher_overwrites_cancelled :
    dbOneCancelled.jobs.map Job.status = ["cancelled"] ∧
    (watcherFinalize 8 dbOneCancelled 1 "" "(no output)").jobs.map Job.status
      = ["done"] := by
  constructor
  · rfl
  · rfl

/-- C3 fails on the code: the finalize step has no idempotence guard.
Run once against a job it has already finalized (status `'done'`,
i.e. terminal), it writes again — the store changes — and a second
Notification row for the same job is inserted, so two invocations
leave two rows, not one. -/
theorem C3_finalize_not_idempotent :
    ((watcherFinalize 8 dbOneRunning 1 "" "(no output)").jobs.map Job.status
       = ["done"]) ∧
    (watcherFinalize 9 (watcherFinalize 8 dbOneRunning 1 "" "(no output)") 1
        "" "(no output)"
      ≠ watcherFinalize 8 dbOneRunning 1 "" "(no output)") ∧
    ((watcherFinalize 9 (watcherFinalize 8 dbOneRunning 1 "" "(no output)") 1
        "" "(no output)").notifications.length = 2) := by
  refine ⟨rfl, by decide, rfl⟩

/-- C4: the Status Reconciler, on every read of a job: a row whose
recorded status is not `'running'` is returned unchanged together with
the untouched store; a `'running'` row with a truthy pid whose
liveness probe fails is rewritten to `status='done'` with
`finished_at=now`, while the exit-code and error columns — NULL for a
row the watcher has not finalized — stay NULL, and every other row of
the store survives verbatim. -/
theorem C4_reconciler_lazy_correction (os : OS) (now : Nat) (db : DB) (job : Job) :
    (job.status ≠ "running" → check_and_update_status os now db job = (db, job)) ∧
    (job.status = "running" → pidTruthy job.pid →
     os.alive (job.pid.getD 0) = false →
     job ∈ db.jobs → job.exit_code = none → job.error = none →
      (check_and_update_status os now db job).2.status = "done" ∧
      (∃ k ∈ (check_and_update_status os now db job).1.jobs,
         k.id = job.id ∧ k.status = "done" ∧ k.finished_at = some now ∧
         k.exit_code = none ∧ k.error = none) ∧
      (∀ k ∈ db.jobs, k.id ≠ job.id →
         k ∈ (check_and_update_status os now db job).1.jobs)) := by
  constructor
  · exact reconcile_eq_of_not_running os now db job
  · intro hrun hpid halive hmem hec herr
    have hcheck : check_and_update_status os now db job =
        ({ db with jobs := (updateJob db.jobs job.id
            (fun j => { j with status := "done", finished_at := some now })) },
         { job with status := "done" }) := by
      unfold check_and_update_status
      rw [if_neg (fun h => h.elim (fun h1 => h1 hrun) (fun h2 => h2 hpid)),
        if_neg (by simp [halive])]
    rw [hcheck]
    refine ⟨rfl, ⟨{ job with status := "done", finished_at := some now },
      mem_updateJob_of_eq hmem rfl _, rfl, rfl, rfl, hec, herr⟩,
      fun k hk hne => mem_updateJob_of_ne hk hne _⟩

/-- Witness for C4 at a concrete store: a `'running'` row with pid 10
whose process is gone is lazily corrected to `'done'` with a
completion tick and NULL exit code and error; and a `'done'` row is
returned unchanged. -/
theorem C4_reconciler_lazy_correction_witness :
    ((check_and_update_status osAllDead 5 dbOneRunning
        (mkJob 1 "running" (some 10))).2.status = "done" ∧
     (∃ k ∈ (check_and_update_status osAllDead 5 dbOneRunning
        (mkJob 1 "running" (some 10))).1.jobs,
        k.id = 1 ∧ k.status = "done" ∧ k.finished_at = some 5 ∧
        k.exit_code = none ∧ k.error = none)) ∧
    check_and_update_status osAllDead 5 dbOneRunning (mkJob 7 "done" (some 10))
      = (dbOneRunning, mkJob 7 "done" (some 10)) := by
  have h2 := (C4_reconciler_lazy_correction osAllDead 5 dbOneRunning
    (mkJob 1 "running" (some 10))).2 rfl (by decide) rfl (by decide) rfl rfl
  have h1 := (C4_reconciler_lazy_correction osAllDead 5 dbOneRunning
    (mkJob 7 "done" (some 10))).1 (by decide)
  exact ⟨⟨h2.1, h2.2.1⟩, h1⟩

theorem pyTake_length_le (s : String) (n : Nat) : (pyTake s n).length ≤ n := by
  show (s.data.take n).length ≤ n
  exact List.length_take_le n s.data

/-- How the finalize step rewrites the jobs table, split on whether
the stripped error text is empty. -/
theorem watcherFinalize_jobs_eq (now : Nat) (db : DB) (job_id : Nat)
    (rawErr preview : String) :
    (watcherFinalize now db job_id rawErr preview).jobs =
      (if pyStrip rawErr = "" then
        updateJob db.jobs job_id (fun x =>
          { x with status := "done", finished_at := some now, exit_code := some 0 })
      else
        updateJob (updateJob db.jobs job_id (fun x =>
            { x with status := "done", finished_at := some now, exit_code := some 1 }))
          job_id
          (fun x => { x with error := some (pyTake (pyStrip rawErr) 500) })) := by
  by_cases h : pyStrip rawErr = "" <;> simp [watcherFinalize, h]

/-- C5: the finalize step derives the recorded exit code from the
captured error stream, never from the OS (the model has no OS exit
status at all — the watcher polls `os.kill(pid, 0)` and the launched
process is not its child): the finalized row carries exit code 0 when
the stripped error-artifact content is empty, and exit code 1
otherwise, in which case the stored error excerpt is the stripped
content truncated to at most 500 characters. -/
theorem C5_exit_code_from_error_stream (now : Nat) (db : DB) (job_id : Nat)
    (rawErr preview : String) (j : Job) (hj : j ∈ db.jobs) (hid : j.id = job_id) :
    ∃ k ∈ (watcherFinalize now db job_id rawErr preview).jobs,
      k.id = job_id ∧ k.status = "done" ∧
      (pyStrip rawErr = "" → k.exit_code = some 0 ∧ k.error = j.error) ∧
      (pyStrip rawErr ≠ "" → k.exit_code = some 1 ∧
        k.error = some (pyTake (pyStrip rawErr) 500) ∧
        (∀ e, k.error = some e → e.length ≤ 500)) := by
  by_cases h : pyStrip rawErr = ""
  · have hmem :
        ({ j with
            status := "done", finished_at := some now, exit_code := some 0 } : Job)
          ∈ (watcherFinalize now db job_id rawErr preview).jobs := by
      rw [watcherFinalize_jobs_eq, if_pos h]
      exact mem_updateJob_of_eq hj hid _
    exact ⟨_, hmem, hid, rfl, fun _ => ⟨rfl, rfl⟩, fun hne => absurd h hne⟩
  · have hmem :
        ({ j with
            status := "done", finished_at := some now, exit_code := some 1,
            error := some (pyTake (pyStrip rawErr) 500) } : Job)
          ∈ (watcherFinalize now db job_id rawErr preview).jobs := by
      rw [watcherFinalize_jobs_eq, if_neg h]
      exact mem_updateJob_of_eq (mem_updateJob_of_eq hj hid _) hid _
    refine ⟨_, hmem, hid, rfl, fun he => absurd he h, fun _ => ⟨rfl, rfl, ?_⟩⟩
    intro e he
    rw [Option.some_inj] at he
    rw [← he]
    exact pyTake_length_le _ 500

/-- Witness for C5 at a concrete store: finalizing job 1 with error
content `"  boom \n"` yields exit code 1 and the stripped, truncated
excerpt; with whitespace-only error content it yields exit code 0. -/
theorem C5_exit_code_from_error_stream_witness :
    (∃ k ∈ (watcherFinalize 8 dbOneRunning 1 "  boom \n" "p").jobs,
      k.id = 1 ∧ k.status = "done" ∧
      (pyStrip "  boom \n" = "" → k.exit_code = some 0 ∧
        k.error = (mkJob 1 "running" (some 10)).error) ∧
      (pyStrip "  boom \n" ≠ "" → k.exit_code = some 1 ∧
        k.error = some (pyTake (pyStrip "  boom \n") 500) ∧
        (∀ e, k.error = some e → e.length ≤ 500))) ∧
    (∃ k ∈ (watcherFinalize 8 dbOneRunning 1 "   \n" "p").jobs,
      k.id = 1 ∧ k.status = "done" ∧
      (pyStrip "   \n" = "" → k.exit_code = some 0 ∧
        k.error = (mkJob 1 "running" (some 10)).error) ∧
      (pyStrip "   \n" ≠ "" → k.exit_code = some 1 ∧
        k.error = some (pyTake (pyStrip "   \n") 500) ∧
        (∀ e, k.error = some e → e.length ≤ 500))) :=
  ⟨C5_exit_code_from_error_stream 8 dbOneRunning 1 "  boom \n" "p"
      (mkJob 1 "running" (some 10)) (by decide) rfl,
   C5_exit_code_from_error_stream 8 dbOneRunning 1 "   \n" "p"
      (mkJob 1 "running" (some 10)) (by decide) rfl⟩

/-- C6: cancelling a `'running'` job with a truthy pid sends SIGTERM
to the job's entire process group (`os.killpg(os.getpgid(pid), ...)`)
and marks the row `'cancelled'` with a completion tick — the store
update is the same whatever `killpgOk` says, i.e. regardless of
whether signal delivery succeeds — while every other row survives;
cancelling a job whose status is not `'running'` reports the existing
status and performs no writes. -/
theorem C6_cancel_semantics (os : OS) (now : Nat) (db : DB) (jid : Nat) (job : Job)
    (hfind : db.jobs.find? (fun x => x.id = jid) = some job) :
    (job.status ≠ "running" →
      cancel_job os now db jid = (db, CancelOutcome.already job.status)) ∧
    (job.status = "running" → ∀ p, job.pid = some p → p ≠ 0 →
      (cancel_job os now db jid).2 = CancelOutcome.cancelled (some (os.pgid p)) ∧
      (∃ k ∈ (cancel_job os now db jid).1.jobs,
         k.id = job.id ∧ k.status = "cancelled" ∧ k.finished_at = some now ∧
         k.exit_code = job.exit_code ∧ k.pid = job.pid) ∧
      (∀ k ∈ db.jobs, k.id ≠ jid →
         k ∈ (cancel_job os now db jid).1.jobs)) := by
  have hmem := List.mem_of_find?_eq_some hfind
  have hids : job.id = jid := by simpa using List.find?_some hfind
  simp only [cancel_job, hfind]
  constructor
  · intro h
    rw [if_pos h]
  · intro hrun p hp hp0
    rw [if_neg (by simp [hrun])]
    have hpt : pidTruthy job.pid = true := by simp [hp, pidTruthy, hp0]
    refine ⟨by simp [hp, pidTruthy, hp0], ?_, ?_⟩
    · exact ⟨{ job with status := "cancelled", finished_at := some now },
        mem_updateJob_of_eq hmem hids _, rfl, rfl, rfl, rfl, rfl⟩
    · exact fun k hk hne => mem_updateJob_of_ne hk hne _

/-- Witness for C6 at a concrete store: cancelling running job 1
(pid 10) signals process group 110 and flips the row to `'cancelled'`
with a completion tick; cancelling a `'cancelled'` job is a no-op
reporting the existing status. -/
theorem C6_cancel_semantics_witness :
    ((cancel_job osAllDead 7 dbOneRunning 1).2 =
       CancelOutcome.cancelled (some 110) ∧
     (∃ k ∈ (cancel_job osAllDead 7 dbOneRunning 1).1.jobs,
        k.id = 1 ∧ k.status = "cancelled" ∧ k.finished_at = some 7 ∧
        k.exit_code = none ∧ k.pid = some 10)) ∧
    cancel_job osAllDead 7 dbOneCancelled 1 =
      (dbOneCancelled, CancelOutcome.already "cancelled") := by
  have h1 := (C6_cancel_semantics osAllDead 7 dbOneRunning 1
      (mkJob 1 "running" (some 10)) (by decide)).2 rfl 10 rfl (by decide)
  have h2 := (C6_cancel_semantics osAllDead 7 dbOneCancelled 1
      ({ mkJob 1 "cancelled" (some 10) with finished_at := some 3 })
      (by decide)).1 (by decide)
  exact ⟨⟨h1.1, h1.2.1⟩, h2⟩

/-- After folding the `UPDATE ... SET delivered = 1` statements over
the pending rows, every row whose undelivered occurrences all had an
id among the pending rows is delivered. -/
theorem delivered_after_fold_marks :
    ∀ (pend ns : List Notification),
      (∀ n ∈ ns, n.delivered = false → ∃ m ∈ pend, m.id = n.id) →
      ∀ n ∈ pend.foldl (fun a m => markDelivered a m.id) ns, n.delivered = true := by
  intro pend
  induction pend with
  | nil =>
    intro ns h n hn
    simp only [List.foldl_nil] at hn
    cases hd : n.delivered with
    | true => rfl
    | false =>
      obtain ⟨m, hm, _⟩ := h n hn hd
      exact absurd hm (List.not_mem_nil m)
  | cons m rest ih =>
    intro ns h n hn
    rw [List.foldl_cons] at hn
    refine ih (markDelivered ns m.id) ?_ n hn
    intro x hx hxd
    obtain ⟨x0, hx0, hmap⟩ := List.mem_map.mp hx
    by_cases he : x0.id = m.id
    · rw [if_pos he] at hmap
      rw [← hmap] at hxd
      simp at hxd
    · rw [if_neg he] at hmap
      subst hmap
      obtain ⟨k, hk, hkid⟩ := h x0 hx0 hxd
      rcases List.mem_cons.mp hk with rfl | hk2
      · exact absurd hkid.symm he
      · exact ⟨k, hk2, hkid⟩

/-- C7: `get_notifications` returns the messages of exactly the rows
with `delivered = 0`, in an order sorted by creation time, and marks
every returned row delivered before completing: afterwards every row of
the table is delivered, so a second call with no new completions in
between returns nothing. -/
theorem C7_notification_delivery (db : DB) :
    ((get_notifications db).1 =
      (sortByCreated (db.notifications.filter (fun n => ¬ n.delivered))).map
        Notification.message) ∧
    ((sortByCreated (db.notifications.filter (fun n => ¬ n.delivered))).Perm
      (db.notifications.filter (fun n => ¬ n.delivered))) ∧
    (List.Pairwise (fun a b : Notification => a.created_at ≤ b.created_at)
      (sortByCreated (db.notifications.filter (fun n => ¬ n.delivered)))) ∧
    (∀ n ∈ (get_notifications db).2.notifications, n.delivered = true) ∧
    ((get_notifications ((get_notifications db).2)).1 = []) := by
  have hperm : (sortByCreated (db.notifications.filter (fun n => ¬ n.delivered))).Perm
      (db.notifications.filter (fun n => ¬ n.delivered)) :=
    List.perm_insertionSort _ _
  have hall : ∀ n ∈ (get_notifications db).2.notifications, n.delivered = true := by
    intro n hn
    refine delivered_after_fold_marks _ db.notifications ?_ n hn
    intro x hx hxd
    refine ⟨x, ?_, rfl⟩
    rw [hperm.mem_iff, List.mem_filter]
    exact ⟨hx, by simp [hxd]⟩
  refine ⟨rfl, hperm, ?_, hall, ?_⟩
  · exact List.sorted_insertionSort _ _
  · show (sortByCreated ((get_notifications db).2.notifications.filter
        (fun n => ¬ n.delivered))).map Notification.message = []
    have : (get_notifications db).2.notifications.filter
        (fun n => ¬ n.delivered) = [] := by
      rw [List.filter_eq_nil_iff]
      intro n hn
      simp [hall n hn]
    rw [this]
    rfl

/-- C1 as amended: the quota check inside `guard_job` behaves as the
spec says — for a command that passes the safety and path checks,
when the running count is at least `max_concurrent_jobs` it returns a
denial whose reason names the current and maximum counts, and
`guard_job` itself creates no Job row (it returns a pure decision) —
but `submit_job` never consults it: `jobs.py` contains no call to the
guard, and a submission inserts a Job row unconditionally, so the
denial prevents a row only when an external caller runs `guard_job`
first and gives up on deny. -/
theorem C1_quota_denied_but_submit_unguarded (cfg : GuardConfig) (db : DB)
    (cmd : String) (lbl : Option String) (now pid : Nat)
    (hsafe : (is_command_safe cfg cmd).1 = true)
    (hpaths : ∀ p ∈ findPaths true cmd.data, cfg.pathAllowed p = true)
    (hquota : cfg.max_concurrent_jobs ≤ runningCount db.jobs) :
    guard_job cfg (some db) cmd =
      (false, "Too many concurrent jobs (" ++ toString (runningCount db.jobs) ++
        "/" ++ toString cfg.max_concurrent_jobs ++ ")") ∧
    (submit_job db cmd lbl now pid).1.jobs = db.jobs ++
      [{ id := db.next_job_id, command := cmd, label := lbl, status := "running",
         pid := some pid, created_at := now, finished_at := none,
         exit_code := none, output_file := some (outputPath db.next_job_id),
         error := none }] := by
  constructor
  · have hfnone : (((findPaths true cmd.data).filter
        (fun p => p ≠ "/" ∧ p ≠ "~")).find? (fun p => ¬ cfg.pathAllowed p)) = none := by
      rw [List.find?_eq_none]
      intro p hp
      have hp1 : p ∈ findPaths true cmd.data := (List.mem_filter.mp hp).1
      simp [hpaths p hp1]
    simp only [guard_job, hsafe, hfnone, Bool.not_true, Bool.false_eq_true,
      not_false_eq_true, reduceIte]
    rw [if_pos hquota]
    simp
  · rfl

/-- Witness for the amended C1 at the concrete store with five running
jobs and the default configuration (`max_concurrent_jobs = 5`). -/
theorem C1_quota_denied_but_submit_unguarded_witness :
    guard_job defaultGuardConfig (some dbFiveRunning) "sleep 60" =
      (false, "Too many concurrent jobs (" ++
        toString (runningCount dbFiveRunning.jobs) ++ "/" ++
        toString defaultGuardConfig.max_concurrent_jobs ++ ")") ∧
    (submit_job dbFiveRunning "sleep 60" none 6 99).1.jobs =
      dbFiveRunning.jobs ++
      [{ id := dbFiveRunning.next_job_id, command := "sleep 60", label := none,
         status := "running", pid := some 99, created_at := 6,
         finished_at := none, exit_code := none,
         output_file := some (outputPath dbFiveRunning.next_job_id),
         error := none }] :=
  C1_quota_denied_but_submit_unguarded defaultGuardConfig dbFiveRunning
    "sleep 60" none 6 99 (by decide) (fun p _ => rfl) (by decide)

/-- C1 as stated is false on the code: with five jobs running against
`max_concurrent_jobs = 5`, a submission is not rejected — `submit_job`
performs no admission check and a sixth Job row is created. -/
theorem C1_counterexample :
    defaultGuardConfig.max_concurrent_jobs ≤ runningCount dbFiveRunning.jobs ∧
    (submit_job dbFiveRunning "sleep 60" none 6 99).1.jobs.length ≠
      dbFiveRunning.jobs.length := by
  constructor
  · decide
  · decide

/-- Dropping the first `n` elements of a list strictly sorted by
descending id keeps exactly the elements preceded by at least `n`
larger ids. -/
theorem mem_drop_iff_of_strict_desc :
    ∀ (s : List Job), List.Pairwise (fun a b : Job => b.id < a.id) s →
    ∀ (n : Nat) (j : Job),
      j ∈ s.drop n ↔
        j ∈ s ∧ n ≤ (s.filter (fun k => decide (j.id < k.id))).length := by
  intro s
  induction s with
  | nil =>
    intro _ n j
    simp
  | cons a t ih =>
    intro hp n j
    have ha : ∀ b ∈ t, b.id < a.id := (List.pairwise_cons.mp hp).1
    have ht := (List.pairwise_cons.mp hp).2
    cases n with
    | zero => simp
    | succ m =>
      rw [List.drop_succ_cons, ih ht m j]
      by_cases hjt : j ∈ t
      · have hfa : (decide (j.id < a.id)) = true := by
          simpa using ha j hjt
        simp only [List.filter_cons, hfa, if_true, List.length_cons, List.mem_cons]
        constructor
        · rintro ⟨h1, h2⟩
          exact ⟨Or.inr h1, by omega⟩
        · rintro ⟨_, h2⟩
          exact ⟨hjt, by omega⟩
      · by_cases hja : j = a
        · subst hja
          have hfil : List.filter (fun k => decide (j.id < k.id)) (j :: t) = [] := by
            rw [List.filter_eq_nil_iff]
            intro k hk
            rcases List.mem_cons.mp hk with rfl | hk2
            · simp
            · have := ha k hk2
              simp only [decide_eq_true_eq]
              omega
          constructor
          · rintro ⟨h1, _⟩
            exact absurd h1 hjt
          · rintro ⟨_, h2⟩
            rw [hfil] at h2
            exact absurd h2 (by simp)
        · constructor
          · rintro ⟨h1, _⟩
            exact absurd h1 hjt
          · rintro ⟨h1, _⟩
            rcases List.mem_cons.mp h1 with h | h
            · exact absurd h hja
            · exact absurd h hjt

/-- The rows `clean_jobs` selects are exactly the terminal rows with
at least `keep` more-recent terminal rows above them. -/
theorem mem_cleanVictims_iff (db : DB) (keep : Nat)
    (hnodup : (db.jobs.map Job.id).Nodup) (j : Job) :
    j ∈ cleanVictims db keep ↔
      j ∈ db.jobs ∧ isTerminal j.status = true ∧ keep ≤ rankAbove db j := by
  have hperm : (sortByIdDesc (db.jobs.filter (fun k => isTerminal k.status))).Perm
      (db.jobs.filter (fun k => isTerminal k.status)) :=
    List.perm_insertionSort _ _
  have hTsub : ((db.jobs.filter (fun k => isTerminal k.status)).map Job.id).Nodup :=
    List.Nodup.sublist ((List.filter_sublist db.jobs).map Job.id) hnodup
  have hsNodup : ((sortByIdDesc (db.jobs.filter
      (fun k => isTerminal k.status))).map Job.id).Nodup :=
    (List.Perm.nodup_iff (hperm.map Job.id)).mpr hTsub
  have hsorted : List.Pairwise (fun a b : Job => b.id ≤ a.id)
      (sortByIdDesc (db.jobs.filter (fun k => isTerminal k.status))) :=
    List.sorted_insertionSort _ _
  have hne : List.Pairwise (fun a b : Job => a.id ≠ b.id)
      (sortByIdDesc (db.jobs.filter (fun k => isTerminal k.status))) :=
    List.pairwise_map.mp hsNodup
  have hstrict : List.Pairwise (fun a b : Job => b.id < a.id)
      (sortByIdDesc (db.jobs.filter (fun k => isTerminal k.status))) :=
    (hsorted.and hne).imp (fun h => Nat.lt_of_le_of_ne h.1 (fun e => h.2 e.symm))
  have hlen : ((sortByIdDesc (db.jobs.filter (fun k => isTerminal k.status))).filter
        (fun k => decide (j.id < k.id))).length = rankAbove db j := by
    rw [(hperm.filter _).length_eq, List.filter_filter]
    unfold rankAbove
    congr 1
    exact List.filter_congr (fun a _ => Bool.and_comm _ _)
  show j ∈ (sortByIdDesc (db.jobs.filter (fun k => isTerminal k.status))).drop keep ↔ _
  rw [mem_drop_iff_of_strict_desc _ hstrict keep j, hperm.mem_iff,
    List.mem_filter, hlen]
  tauto

/-- Folding the per-row deletion over the selected rows deletes
exactly the job rows, notification rows and files owned by some
selected row. -/
theorem foldl_cleanOne_eq :
    ∀ (victims : List Job) (db : DB),
      victims.foldl cleanOne db =
        { db with
            jobs := db.jobs.filter (fun j => victims.all (fun v => j.id ≠ v.id)),
            notifications := db.notifications.filter
              (fun n => victims.all (fun v => n.job_id ≠ v.id)),
            files := db.files.filter
              (fun f => victims.all (fun v => ¬ ownsFile v f)) } := by
  intro victims
  induction victims with
  | nil =>
    intro db
    simp
  | cons v vs ih =>
    intro db
    rw [List.foldl_cons, ih]
    simp only [cleanOne, List.filter_filter, List.all_cons]
    congr 1 <;>
      exact List.filter_congr (fun a _ => by rw [Bool.and_comm])

/-- A `'running'` row is never selected by cleanup and survives it
(with unique ids, no selected terminal row can carry its id). -/
theorem running_survives_clean (db : DB) (keep : Nat) (j : Job)
    (hnodup : (db.jobs.map Job.id).Nodup) (hj : j ∈ db.jobs)
    (hrun : j.status = "running") :
    j ∈ (clean_jobs db keep).1.jobs := by
  show j ∈ ((cleanVictims db keep).foldl cleanOne db).jobs
  rw [foldl_cleanOne_eq]
  simp only [List.mem_filter]
  refine ⟨hj, ?_⟩
  rw [List.all_eq_true]
  intro v hv
  have hvfacts := (mem_cleanVictims_iff db keep hnodup v).mp hv
  simp only [decide_eq_true_eq]
  intro he
  have : j = v := List.inj_on_of_nodup_map hnodup hj hvfacts.1 he
  rw [← this] at hvfacts
  rw [hrun] at hvfacts
  exact absurd hvfacts.2.1 (by decide)

/-- C8: for every retain count, cleanup deletes exactly the terminal
jobs beyond the `keep` most recent (ordered by id descending): a job
row survives iff it is not a terminal row with at least `keep` younger
terminal rows; `'running'` rows survive regardless of age; a
notification row survives iff its owning job is not deleted; each
deleted row's two artifact files and residual watcher script are gone
from the artifact directory; and the reported count is the number of
terminal rows beyond the retained ones. -/
theorem C8_clean_retention (db : DB) (keep : Nat)
    (hnodup : (db.jobs.map Job.id).Nodup) :
    (∀ j, j ∈ (clean_jobs db keep).1.jobs ↔
       (j ∈ db.jobs ∧
        ¬(isTerminal j.status = true ∧ keep ≤ rankAbove db j))) ∧
    (∀ j ∈ db.jobs, j.status = "running" → j ∈ (clean_jobs db keep).1.jobs) ∧
    (∀ n, n ∈ (clean_jobs db keep).1.notifications ↔
       (n ∈ db.notifications ∧
        ¬ ∃ j, j ∈ db.jobs ∧ j.id = n.job_id ∧ isTerminal j.status = true ∧
          keep ≤ rankAbove db j)) ∧
    (∀ j ∈ db.jobs, isTerminal j.status = true → keep ≤ rankAbove db j →
       ∀ o, j.output_file = some o →
         withSuffix o ".out" ∉ (clean_jobs db keep).1.files ∧
         withSuffix o ".err" ∉ (clean_jobs db keep).1.files ∧
         watcherPath j.id ∉ (clean_jobs db keep).1.files) ∧
    ((clean_jobs db keep).2 =
       (db.jobs.filter (fun k => isTerminal k.status)).length - keep) := by
  have hchar := mem_cleanVictims_iff db keep hnodup
  have hfold : (clean_jobs db keep).1 = (cleanVictims db keep).foldl cleanOne db := rfl
  refine ⟨?_, ?_, ?_, ?_, ?_⟩
  · intro j
    rw [hfold, foldl_cleanOne_eq]
    simp only [List.mem_filter, List.all_eq_true, decide_eq_true_eq]
    constructor
    · rintro ⟨hj, hall⟩
      refine ⟨hj, fun hbad => ?_⟩
      have hjv : j ∈ cleanVictims db keep := (hchar j).mpr ⟨hj, hbad.1, hbad.2⟩
      exact hall j hjv rfl
    · rintro ⟨hj, hnbad⟩
      refine ⟨hj, fun v hv he => ?_⟩
      have hvfacts := (hchar v).mp hv
      have : j = v := List.inj_on_of_nodup_map hnodup hj hvfacts.1 he
      rw [← this] at hvfacts
      exact hnbad ⟨hvfacts.2.1, hvfacts.2.2⟩
  · exact fun j hj hr => running_survives_clean db keep j hnodup hj hr
  · intro n
    rw [hfold, foldl_cleanOne_eq]
    simp only [List.mem_filter, List.all_eq_true, decide_eq_true_eq]
    constructor
    · rintro ⟨hn, hall⟩
      refine ⟨hn, fun hbad => ?_⟩
      obtain ⟨j, hj, hid, hterm, hrank⟩ := hbad
      exact hall j ((hchar j).mpr ⟨hj, hterm, hrank⟩) hid.symm
    · rintro ⟨hn, hnbad⟩
      refine ⟨hn, fun v hv he => ?_⟩
      have hvfacts := (hchar v).mp hv
      exact hnbad ⟨v, hvfacts.1, he.symm, hvfacts.2.1, hvfacts.2.2⟩
  · intro j hj hterm hrank o ho
    have hjv : j ∈ cleanVictims db keep := (hchar j).mpr ⟨hj, hterm, hrank⟩
    rw [hfold, foldl_cleanOne_eq]
    simp only [List.mem_filter, List.all_eq_true]
    refine ⟨fun h => ?_, fun h => ?_, fun h => ?_⟩ <;>
    · have := h.2 j hjv
      simp [ownsFile, ho] at this
  · show (cleanVictims db keep).length = _
    unfold cleanVictims
    rw [List.length_drop]
    congr 1
    exact (List.perm_insertionSort _ _).length_eq

/-- Witness for C8 at the spec §8 scenario: five terminal jobs and one
running job, `keep = 2` — the three oldest terminal jobs (ids 1, 2, 3)
are removed with their notification rows and artifact/watcher files,
the two newest terminal jobs (4, 5) and the running job (6) survive,
and the reported count is 3. -/
theorem C8_clean_retention_witness :
    (mkJob 1 "done" none ∉ (clean_jobs dbSixJobs 2).1.jobs) ∧
    (mkJob 4 "done" none ∈ (clean_jobs dbSixJobs 2).1.jobs) ∧
    (mkJob 6 "running" (some 9) ∈ (clean_jobs dbSixJobs 2).1.jobs) ∧
    ((⟨1, 1, "n1", 1, true⟩ : Notification) ∉
       (clean_jobs dbSixJobs 2).1.notifications) ∧
    ((⟨2, 4, "n4", 4, false⟩ : Notification) ∈
       (clean_jobs dbSixJobs 2).1.notifications) ∧
    (outputPath 1 ∉ (clean_jobs dbSixJobs 2).1.files) ∧
    (errorPath 1 ∉ (clean_jobs dbSixJobs 2).1.files) ∧
    (watcherPath 1 ∉ (clean_jobs dbSixJobs 2).1.files) ∧
    (outputPath 4 ∈ (clean_jobs dbSixJobs 2).1.files) ∧
    ((clean_jobs dbSixJobs 2).2 = 3) := by
  have h := C8_clean_retention dbSixJobs 2 (by decide)
  refine ⟨?_, ?_, ?_, ?_, ?_, ?_, ?_, ?_, ?_, ?_⟩
  · intro hmem
    have := (h.1 _).mp hmem
    exact this.2 (by decide)
  · exact (h.1 _).mpr (by decide)
  · exact h.2.1 _ (by decide) rfl
  · intro hmem
    have := (h.2.2.1 _).mp hmem
    refine this.2 ⟨mkJob 1 "done" none, by decide, by decide, by decide, by decide⟩
  · refine (h.2.2.1 _).mpr ⟨by decide, ?_⟩
    rintro ⟨j, hj, hid, hterm, hrank⟩
    simp only [dbSixJobs, List.mem_cons, List.not_mem_nil, or_false] at hj
    rcases hj with rfl | rfl | rfl | rfl | rfl | rfl <;>
      revert hid hterm hrank <;> decide
  · have hb := h.2.2.2.1 (mkJob 1 "done" none) (by decide) (by decide) (by decide)
      (outputPath 1) rfl
    have : withSuffix (outputPath 1) ".out" = outputPath 1 := by decide
    rw [← this]
    exact hb.1
  · have hb := h.2.2.2.1 (mkJob 1 "done" none) (by decide) (by decide) (by decide)
      (outputPath 1) rfl
    have : withSuffix (outputPath 1) ".err" = errorPath 1 := by decide
    rw [← this]
    exact hb.2.1
  · exact (h.2.2.2.1 (mkJob 1 "done" none) (by decide) (by decide) (by decide)
      (outputPath 1) rfl).2.2
  · show outputPath 4 ∈ ((cleanVictims dbSixJobs 2).foldl cleanOne dbSixJobs).files
    rw [foldl_cleanOne_eq]
    decide
  · rw [h.2.2.2.2]
    decide

/-- C10 (implicit): cancelling a `'running'` job whose pid column is
NULL skips the `if job['pid']` signalling block entirely — the outcome
records that no signal was attempted — yet still rewrites the row to
`'cancelled'` with a completion tick; and among the operations of the
system it is the only one that moves such a row: the Reconciler
returns it untouched, every read (status, result, list) keeps it
unchanged in the store, notification delivery does not touch the jobs
table, cleanup never selects it, and a submission only appends a fresh
row. -/
theorem C10_cancel_pidless_only_exit (os : OS) (now : Nat) (db : DB)
    (jid : Nat) (j : Job)
    (hnodup : (db.jobs.map Job.id).Nodup)
    (hfind : db.jobs.find? (fun x => x.id = jid) = some j)
    (hrun : j.status = "running") (hpid : j.pid = none) :
    ((cancel_job os now db jid).2 = CancelOutcome.cancelled none ∧
     (∃ k ∈ (cancel_job os now db jid).1.jobs,
        k.id = j.id ∧ k.status = "cancelled" ∧ k.finished_at = some now)) ∧
    check_and_update_status os now db j = (db, j) ∧
    (∀ q, j ∈ (get_job_status os now db q).jobs) ∧
    (∀ q, j ∈ (get_job_result os now db q).jobs) ∧
    (∀ limit, j ∈ (list_jobs os now db limit).jobs) ∧
    ((get_notifications db).2.jobs = db.jobs) ∧
    (∀ keep, j ∈ (clean_jobs db keep).1.jobs) ∧
    (∀ cmd lbl t pid, j ∈ (submit_job db cmd lbl t pid).1.jobs) := by
  have hmem := List.mem_of_find?_eq_some hfind
  have hids : j.id = jid := by simpa using List.find?_some hfind
  have hp : ¬ pidTruthy j.pid := by simp [hpid, pidTruthy]
  have hreads := pid_falsy_survives_reads os now db j hnodup hmem hp
  refine ⟨?_, reconcile_eq_of_pid_falsy os now db j hp,
    hreads.1, hreads.2.1, hreads.2.2, rfl,
    fun keep => running_survives_clean db keep j hnodup hmem hrun,
    fun cmd lbl t pid => List.mem_append_left _ hmem⟩
  simp only [cancel_job, hfind]
  rw [if_neg (by simp [hrun])]
  have hsig : (if pidTruthy j.pid = true
      then some (os.pgid (j.pid.getD 0)) else none) = none := by
    simp [hpid, pidTruthy]
  constructor
  · simp [hsig]
  · exact ⟨{ j with status := "cancelled", finished_at := some now },
      mem_updateJob_of_eq hmem hids _, rfl, rfl, rfl⟩

/-- Witness for C10 at a concrete store: one `'running'` row with NULL
pid; cancel reports no signal attempted and the row ends `'cancelled'`
with a completion tick, while a reconcile, a listing, notification
delivery, a cleanup and a fresh submission all keep the row as it
was. -/
theorem C10_cancel_pidless_only_exit_witness :
    ((cancel_job osAllDead 7 dbPidless 1).2 = CancelOutcome.cancelled none ∧
     (∃ k ∈ (cancel_job osAllDead 7 dbPidless 1).1.jobs,
        k.id = 1 ∧ k.status = "cancelled" ∧ k.finished_at = some 7)) ∧
    check_and_update_status osAllDead 7 dbPidless (mkJob 1 "running" none) =
      (dbPidless, mkJob 1 "running" none) ∧
    mkJob 1 "running" none ∈ (list_jobs osAllDead 7 dbPidless 10).jobs ∧
    (get_notifications dbPidless).2.jobs = dbPidless.jobs ∧
    mkJob 1 "running" none ∈ (clean_jobs dbPidless 0).1.jobs ∧
    mkJob 1 "running" none ∈
      (submit_job dbPidless "sleep 60" none 9 42).1.jobs := by
  have h := C10_cancel_pidless_only_exit osAllDead 7 dbPidless 1
    (mkJob 1 "running" none) (by decide) (by decide) rfl rfl
  exact ⟨h.1, h.2.1, h.2.2.2.2.1 10, h.2.2.2.2.2.1,
    h.2.2.2.2.2.2.1 0, h.2.2.2.2.2.2.2 "sleep 60" none 9 42⟩

end CodeIntel

